import Mathlib

/-!
Verification of the `@marianmeres/fsm` finite-state-machine library.

This file shallowly embeds the TypeScript sources (`src/fsm.ts`,
`src/compose-fsm-config.ts`, `src/from-mermaid.ts`) into Lean 4 and settles
the frozen claims C1..C10 against the embedding.

Modelling conventions:
* Mutable TS class state (`this.#state`, `this.#previous`, `this.context`)
  becomes explicit state passing over a `Machine` record.
* A JS function that mutates an object argument is modelled as a pure Lean
  function that also returns the final value of that argument: a guard
  `(context, payload) => boolean` becomes `Ctx → P → Bool × Ctx`, where the
  second component is the state of the context object after the call
  (a non-mutating guard returns its argument unchanged).
* `structuredClone(x)` produces an independent copy of `x`; in the value
  semantics of Lean this is `x` itself, and mutations a guard performs on a
  clone are modelled by *discarding* (or, inside a sequence scan, *threading
  to the next guard*) the second component of the guard's result, exactly as
  the source discards the clone.
* Fields typed `fn | undefined` in TS become `Option fn`; the guard/action
  fields of a transition edge can additionally hold JS `null` (the
  `from-mermaid` parser assigns `null` placeholders), so they are modelled by
  the three-valued `JsVal`.
* A thrown JS exception becomes `Except.error msg`.  (A TS throw leaves the
  already-performed mutations on the instance; the claims below never observe
  the machine after a throw, so `Except.error` carries only the message.)
* Subscriber callbacks are external code; the engine's observable behaviour
  towards them is recorded as an event trace (`Ev`): hook invocations in
  order, and one `callCb` event per registered subscriber at each publish.
-/

namespace Fsm

/-- JS value of TS type `F | null | undefined`, as stored in the `guard` and
`action` fields of a transition edge (`from-mermaid.ts` assigns `null`
placeholders into fields whose TS type says `F | undefined`). -/
inductive JsVal (F : Type) where
  | undefined : JsVal F
  | null : JsVal F
  | fn (f : F) : JsVal F

/-- The check `typeof x === "function"` (for these fields it coincides with JS
truthiness, since the only possible values are a function, `null` and
`undefined`). -/
def JsVal.isFn {F : Type} : JsVal F → Bool
  | .fn _ => true
  | _ => false

/-- `TransitionObj` from `fsm.ts`: `{ target?, guard?, action? }`. -/
structure TransitionObj (Ctx P : Type) where
  target : Option String := none
  guard : JsVal (Ctx → P → Bool × Ctx) := .undefined
  action : JsVal (Ctx → P → Ctx) := .undefined

/-- `TransitionDef` from `fsm.ts`: a bare target string, a single edge object,
or an ordered array of edge objects. -/
inductive TransitionDef (Ctx P : Type) where
  | str (s : String) : TransitionDef Ctx P
  | obj (t : TransitionObj Ctx P) : TransitionDef Ctx P
  | arr (ts : List (TransitionObj Ctx P)) : TransitionDef Ctx P

/-- `FSMStatesConfigValue` from `fsm.ts`.  The source's `on` mapping is a JS
object, modelled as an insertion-ordered association list without duplicate
keys (the field is called `onMap` here because `on` is notation in Mathlib);
`onMap = none` models a state config whose `on` property is
absent/undefined (possible for configs built outside the TS type checker,
cf. the `!currentStateConfig.on` check in the source). -/
structure StateConfig (Ctx P : Type) where
  onEnter : Option (Ctx → P → Ctx) := none
  onMap : Option (List (String × TransitionDef Ctx P)) := none
  onExit : Option (Ctx → P → Ctx) := none

/-- A context source: a plain value or a factory function
(`context?: TContext | (() => TContext)`). -/
inductive CtxSource (Ctx : Type) where
  | val (c : Ctx) : CtxSource Ctx
  | factory (f : Unit → Ctx) : CtxSource Ctx

/-- `FSMConfig` from `fsm.ts` (debug/logger omitted: the claims never touch
logging, which is gated behind a boolean and does not affect any observable
modelled here).  `states` is a JS object: insertion-ordered association list. -/
structure FSMConfig (Ctx P : Type) where
  initial : String
  states : List (String × StateConfig Ctx P)
  context : Option (CtxSource Ctx) := none

/-- The data published to subscribers (`#getNotifyData`). -/
structure NotifyData (Ctx : Type) where
  current : String
  previous : Option String
  context : Ctx

/-- The running FSM instance: config plus the mutable fields `#state`,
`#previous`, `context`, and the pubsub subscriber registry (subscribers are
identified by the `Nat` handed out at registration; `nextId` is the next
fresh id). -/
structure Machine (Ctx P : Type) where
  config : FSMConfig Ctx P
  state : String
  previous : Option String := none
  context : Ctx
  subs : List Nat := []
  nextId : Nat := 0

/-- Observable events emitted during a public call, in order: lifecycle hook
invocations (recording the context value the hook received) and subscriber
callback invocations (one per registered subscriber at each publish). -/
inductive Ev (Ctx : Type) where
  | exitHook (state : String) (ctx : Ctx) : Ev Ctx
  | actionRun (ctx : Ctx) : Ev Ctx
  | enterHook (state : String) (ctx : Ctx) : Ev Ctx
  | callCb (id : Nat) (data : NotifyData Ctx) : Ev Ctx

variable {Ctx P : Type}

/-- JS truthiness of a string: only `""` is falsy. -/
def strTruthy (s : String) : Bool := s ≠ ""

/-- JS truthiness of the `target` field (`undefined` and `""` are falsy). -/
def targetTruthy : Option String → Bool
  | none => false
  | some s => strTruthy s

/-- JS truthiness of a `TransitionDef` value: objects and arrays are always
truthy, a string is truthy iff nonempty (the source tests `!transitionDef`). -/
def defTruthy : TransitionDef Ctx P → Bool
  | .str s => strTruthy s
  | .obj _ => true
  | .arr _ => true

/-- `currentStateConfig.on[event]` followed by the `!transitionDef` falsiness
test: yields the stored definition only if the key is present and the value
truthy. -/
def lookupDef (onMap : List (String × TransitionDef Ctx P)) (ev : String) :
    Option (TransitionDef Ctx P) :=
  match onMap.lookup ev with
  | some d => if defTruthy d then some d else none
  | none => none

/-- The event lookup shared verbatim by `transition` and `canTransition`:
try the literal event, then fall back to the wildcard `"*"` entry. -/
def findDef (onMap : List (String × TransitionDef Ctx P)) (event : String) :
    Option (TransitionDef Ctx P) :=
  match lookupDef onMap event with
  | some d => some d
  | none => lookupDef onMap "*"

/-- The array scan inside `#resolveTransition`.  The source creates ONE
`structuredClone(this.context)` before the loop and passes that same clone to
every guard, so a mutation performed by an earlier guard is visible to later
guards; `clone` threads that shared clone's current value.  An entry whose
`guard` is not a function is an unconditional match. -/
def scanSeq (payload : P) : Ctx → List (TransitionObj Ctx P) →
    Option (TransitionObj Ctx P)
  | _, [] => none
  | clone, t :: rest =>
    match t.guard with
    | .fn g =>
      let r := g clone payload
      if r.1 then some t else scanSeq payload r.2 rest
    | _ => some t

/-- `FSM.#resolveTransition`.  Guards are evaluated against a structural clone
of `ctx`; the clone's final value is discarded (single-object case) or
threaded only into later guards of the same array (array case), never written
back to the machine. -/
def resolveTransition (ctx : Ctx) (td : TransitionDef Ctx P) (payload : P) :
    Option (TransitionObj Ctx P) :=
  match td with
  | .str s => some { target := some s }
  | .arr ts => scanSeq payload ctx ts
  | .obj t =>
    match t.guard with
    | .fn g => if (g ctx payload).1 then some t else none
    | _ => some t

/-- `FSM.#getNotifyData`. -/
def getNotifyData (m : Machine Ctx P) : NotifyData Ctx :=
  { current := m.state, previous := m.previous, context := m.context }

/-- `FSM.#notify`: publish "change" to every registered subscriber, in
registration order. -/
def notifyTrace (m : Machine Ctx P) : List (Ev Ctx) :=
  m.subs.map (fun i => Ev.callCb i (getNotifyData m))

/-- The internal-transition branch of `FSM.transition` (no target): run the
action if it is a function, then notify; state and previous are untouched. -/
def runInternal (m : Machine Ctx P) (t : TransitionObj Ctx P) (payload : P) :
    Machine Ctx P × List (Ev Ctx) :=
  let step : Ctx × List (Ev Ctx) :=
    match t.action with
    | .fn a => (a m.context payload, [Ev.actionRun m.context])
    | _ => (m.context, [])
  let m' := { m with context := step.1 }
  (m', step.2 ++ notifyTrace m')

/-- The external-transition branch of `FSM.transition`: onExit of the old
state, the edge action, previous←old / current←target, onEnter of the new
state, notify.  The source reads `this.config.states[nextState].onEnter`
without a presence check, so a target state absent from the states map raises
a TypeError (after the exit hook, the action and the state assignment have
already happened). -/
def runExternal (m : Machine Ctx P) (stateCfg : StateConfig Ctx P)
    (t : TransitionObj Ctx P) (nextState : String) (payload : P) :
    Except String (Machine Ctx P × List (Ev Ctx)) :=
  let step1 : Ctx × List (Ev Ctx) :=
    match stateCfg.onExit with
    | some f => (f m.context payload, [Ev.exitHook m.state m.context])
    | none => (m.context, [])
  let step2 : Ctx × List (Ev Ctx) :=
    match t.action with
    | .fn a => (a step1.1 payload, [Ev.actionRun step1.1])
    | _ => (step1.1, [])
  let m' := { m with previous := some m.state, state := nextState,
                     context := step2.1 }
  match m.config.states.lookup nextState with
  | none =>
    .error "TypeError: Cannot read properties of undefined (reading 'onEnter')"
  | some nextCfg =>
    let step3 : Ctx × List (Ev Ctx) :=
      match nextCfg.onEnter with
      | some f => (f m'.context payload, [Ev.enterHook nextState m'.context])
      | none => (m'.context, [])
    let m'' := { m' with context := step3.1 }
    .ok (m'', step1.2 ++ step2.2 ++ step3.2 ++ notifyTrace m'')

/-- `FSM.transition(event, payload, assert)`.  Returns the machine after the
call together with the ordered trace of observable events, or the thrown
error message. -/
def transition (m : Machine Ctx P) (event : String) (payload : P)
    (assert : Bool) : Except String (Machine Ctx P × List (Ev Ctx)) :=
  match m.config.states.lookup m.state with
  | none => .error ("No transitions defined for state \"" ++ m.state ++ "\"")
  | some stateCfg =>
    match stateCfg.onMap with
    | none => .error ("No transitions defined for state \"" ++ m.state ++ "\"")
    | some onMap =>
      match findDef onMap event with
      | none =>
        if assert then
          .error ("Invalid transition \"" ++ event ++ "\" from state \"" ++
            m.state ++ "\"")
        else
          .ok (m, [])
      | some td =>
        match resolveTransition m.context td payload with
        | none =>
          if assert then
            .error ("No valid transition found for event \"" ++ event ++
              "\" in state \"" ++ m.state ++ "\"")
          else
            .ok (m, [])
        | some t =>
          if targetTruthy t.target then
            runExternal m stateCfg t (t.target.getD "") payload
          else
            .ok (runInternal m t payload)

/-- `FSM.canTransition(event, payload)`.  Same lookup and resolution as
`transition`, but purely a query: the second component is the machine after
the call, which the source never writes to (guards only ever receive the
structural clone). -/
def canTransition (m : Machine Ctx P) (event : String) (payload : P) :
    Bool × Machine Ctx P :=
  match m.config.states.lookup m.state with
  | none => (false, m)
  | some stateCfg =>
    match stateCfg.onMap with
    | none => (false, m)
    | some onMap =>
      match findDef onMap event with
      | none => (false, m)
      | some td => ((resolveTransition m.context td payload).isSome, m)

/-- `FSM.#initContext`: call the factory, or shallow-copy the static value;
`emptyObj` stands for the `{}` used when no context is configured. -/
def initContext (config : FSMConfig Ctx P) (emptyObj : Ctx) : Ctx :=
  match config.context with
  | some (.factory f) => f ()
  | some (.val c) => c
  | none => emptyObj

/-- The `FSM` constructor. -/
def FSM.new (config : FSMConfig Ctx P) (emptyObj : Ctx) : Machine Ctx P :=
  { config := config, state := config.initial, previous := none,
    context := initContext config emptyObj, subs := [], nextId := 0 }

/-- `FSM.subscribe(cb)`: register the callback with the pubsub, then invoke it
once, synchronously, with the current snapshot.  Returns the machine after the
call, the id of the new subscriber, and the trace of callback invocations made
during the call. -/
def subscribe (m : Machine Ctx P) : Machine Ctx P × Nat × List (Ev Ctx) :=
  let id := m.nextId
  let m' := { m with subs := m.subs ++ [id], nextId := id + 1 }
  (m', id, [Ev.callCb id (getNotifyData m')])

/-- `FSM.reset()`: current←initial, previous←null, context reinitialised,
then one notification. -/
def reset (m : Machine Ctx P) (emptyObj : Ctx) :
    Machine Ctx P × List (Ev Ctx) :=
  let m' := { m with state := m.config.initial, previous := none,
                     context := initContext m.config emptyObj }
  (m', notifyTrace m')

/-! ## `compose-fsm-config.ts` -/

/-- A JS object context: insertion-ordered association list from keys to
values.  `composeFsmConfig` shallow-merges contexts with object spread, so its
embedding is specialised to object-shaped contexts. -/
abbrev ObjCtx (V : Type) := List (String × V)

/-- JS object spread `{...a, ...b}`: the keys of `a` in their order, each with
`b`'s value when `b` also has the key, followed by the keys of `b` not in `a`,
in their order. -/
def spreadAssoc {α : Type} (a b : List (String × α)) : List (String × α) :=
  (a.map (fun kv => (kv.1, (b.lookup kv.1).getD kv.2))) ++
    b.filter (fun kv => (a.lookup kv.1).isNone)

/-- JS object property assignment `obj[k] = v`: overwrite in place when the
key exists, otherwise append the new key. -/
def setAssoc {α : Type} (l : List (String × α)) (k : String) (v : α) :
    List (String × α) :=
  match l with
  | [] => [(k, v)]
  | kv :: rest => if kv.1 == k then (k, v) :: rest else kv :: setAssoc rest k v

/-- Replace the value stored at key `k` (no-op when the key is absent). -/
def modifyAssoc {α : Type} (l : List (String × α)) (k : String) (f : α → α) :
    List (String × α) :=
  l.map (fun kv => if kv.1 == k then (kv.1, f kv.2) else kv)

/-- `normalizeToArray` from `compose-fsm-config.ts`. -/
def normalizeToArray (d : TransitionDef Ctx P) :
    List (TransitionObj Ctx P) :=
  match d with
  | .arr ts => ts
  | .str s => [{ target := some s }]
  | .obj t => [t]

/-- A lifecycle hook. -/
abbrev Hook (Ctx P : Type) := Ctx → P → Ctx

/-- `composeHooks`: one hook that runs the collected hooks in order. -/
def composeHooks (hooks : List (Hook Ctx P)) : Hook Ctx P :=
  fun c p => hooks.foldl (fun acc h => h acc p) c

/-- The `hooks` option. -/
inductive HooksMode where
  | replace | compose

/-- The `context` option. -/
inductive ContextMode where
  | merge | replace

/-- The `onConflict` option. -/
inductive ConflictMode where
  | lastWins | error

/-- The `transitions` option. -/
inductive TransitionsMode where
  | replace | prepend | append

/-- `ComposeFsmConfigOptions` with the source's defaults. -/
structure ComposeOptions where
  hooks : HooksMode := .replace
  context : ContextMode := .merge
  onConflict : ConflictMode := .lastWins
  transitions : TransitionsMode := .replace

/-- A per-state entry of a config fragment
(`Partial<FSMStatesConfigValue>`). -/
structure FragmentState (Ctx P : Type) where
  onEnter : Option (Hook Ctx P) := none
  onMap : Option (List (String × TransitionDef Ctx P)) := none
  onExit : Option (Hook Ctx P) := none

/-- `FSMConfigFragment`. -/
structure Fragment (Ctx P : Type) where
  initial : Option String := none
  states : List (String × FragmentState Ctx P) := []
  context : Option (CtxSource Ctx) := none

/-- The mutable bookkeeping of the `composeFsmConfig` loop. -/
structure ComposeAcc (V P : Type) where
  initial : Option String := none
  contextSources : List (CtxSource (ObjCtx V)) := []
  mergedStates : List (String × StateConfig (ObjCtx V) P) := []
  collectors :
    List (String × (List (Hook (ObjCtx V) P) × List (Hook (ObjCtx V) P))) := []

variable {V : Type}

/-- The prepend/append `on` merge: each new entry is assigned outright when
the event had no handler (`existingDef === undefined`), otherwise both sides
are normalized to arrays and concatenated, the later fragment's entries first
for `prepend`, last for `append`. -/
def mergeOnSeq (mode : TransitionsMode)
    (existing newEntries : List (String × TransitionDef Ctx P)) :
    List (String × TransitionDef Ctx P) :=
  newEntries.foldl
    (fun ex p =>
      match ex.lookup p.1 with
      | none => setAssoc ex p.1 p.2
      | some existingDef =>
        setAssoc ex p.1 (.arr
          (match mode with
           | .prepend => normalizeToArray p.2 ++ normalizeToArray existingDef
           | _ => normalizeToArray existingDef ++ normalizeToArray p.2)))
    existing

/-- Process one `[stateName, stateConfig]` entry of a fragment's `states`. -/
def applyFragmentState (opts : ComposeOptions)
    (p : List (String × StateConfig (ObjCtx V) P) ×
         List (String × (List (Hook (ObjCtx V) P) × List (Hook (ObjCtx V) P))))
    (entry : String × FragmentState (ObjCtx V) P) :
    List (String × StateConfig (ObjCtx V) P) ×
      List (String × (List (Hook (ObjCtx V) P) × List (Hook (ObjCtx V) P))) :=
  let state := entry.1
  let config := entry.2
  -- `if (!mergedStates[state]) { mergedStates[state] = { on: {} }; ... }`
  let ms := if (p.1.lookup state).isNone then
      p.1 ++ [(state, { onMap := some [] })] else p.1
  let col := if (p.1.lookup state).isNone then
      p.2 ++ [(state, ([], []))] else p.2
  -- `if (config.on) { ... }`
  let ms :=
    match config.onMap with
    | none => ms
    | some newOn =>
      match opts.transitions with
      | .replace =>
        modifyAssoc ms state
          (fun sc => { sc with onMap := some (spreadAssoc (sc.onMap.getD []) newOn) })
      | mode =>
        modifyAssoc ms state
          (fun sc => { sc with onMap := some (mergeOnSeq mode (sc.onMap.getD []) newOn) })
  -- hooks
  match opts.hooks with
  | .compose =>
    let col :=
      match config.onEnter with
      | some f => modifyAssoc col state (fun c => (c.1 ++ [f], c.2))
      | none => col
    let col :=
      match config.onExit with
      | some f => modifyAssoc col state (fun c => (c.1, c.2 ++ [f]))
      | none => col
    (ms, col)
  | .replace =>
    let ms :=
      match config.onEnter with
      | some f => modifyAssoc ms state (fun sc => { sc with onEnter := some f })
      | none => ms
    let ms :=
      match config.onExit with
      | some f => modifyAssoc ms state (fun sc => { sc with onExit := some f })
      | none => ms
    (ms, col)

/-- Process one fragment: `initial` (with conflict detection), `context`
collection, then the per-state merge. -/
def processFragment (opts : ComposeOptions) (acc : ComposeAcc V P)
    (fragment : Fragment (ObjCtx V) P) : Except String (ComposeAcc V P) :=
  let conflict : Bool :=
    match opts.onConflict, acc.initial, fragment.initial with
    | .error, some i0, some i => i0 != i
    | _, _, _ => false
  if conflict then
    .error ("Conflict: multiple fragments define different 'initial' values: \""
      ++ acc.initial.getD "" ++ "\" vs \"" ++ fragment.initial.getD "" ++ "\"")
  else
    let acc := match fragment.initial with
      | some i => { acc with initial := some i }
      | none => acc
    let acc := match fragment.context with
      | some src => { acc with contextSources := acc.contextSources ++ [src] }
      | none => acc
    let r := fragment.states.foldl (applyFragmentState opts)
      (acc.mergedStates, acc.collectors)
    .ok { acc with mergedStates := r.1, collectors := r.2 }

/-- Evaluate a context source (`typeof source === "function" ? source() :
source`). -/
def evalCtxSource : CtxSource Ctx → Ctx
  | .factory f => f ()
  | .val c => c

/-- In `hooks: "compose"` mode, install the composed hooks collected per
state. -/
def finalizeHooks
    (col : List (String × (List (Hook (ObjCtx V) P) × List (Hook (ObjCtx V) P))))
    (ms : List (String × StateConfig (ObjCtx V) P)) :
    List (String × StateConfig (ObjCtx V) P) :=
  col.foldl
    (fun ms entry =>
      let ms := if entry.2.1.length > 0 then
          modifyAssoc ms entry.1
            (fun sc => { sc with onEnter := some (composeHooks entry.2.1) })
        else ms
      if entry.2.2.length > 0 then
        modifyAssoc ms entry.1
          (fun sc => { sc with onExit := some (composeHooks entry.2.2) })
      else ms)
    ms

/-- `composeFsmConfig(fragments, options)`.  Falsy fragments are modelled as
`none` entries and filtered out first. -/
def composeFsmConfig (fragments : List (Option (Fragment (ObjCtx V) P)))
    (options : ComposeOptions) : Except String (FSMConfig (ObjCtx V) P) :=
  let validFragments := fragments.filterMap id
  if validFragments.isEmpty then
    .error "composeFsmConfig requires at least one valid fragment"
  else
    match validFragments.foldlM (processFragment options) {} with
    | .error e => .error e
    | .ok acc =>
      let mergedStates :=
        match options.hooks with
        | .compose => finalizeHooks acc.collectors acc.mergedStates
        | .replace => acc.mergedStates
      match acc.initial with
      | none =>
        .error "composeFsmConfig: no 'initial' state defined in any fragment"
      | some initial =>
        let context : Option (CtxSource (ObjCtx V)) :=
          if acc.contextSources.isEmpty then none
          else
            match options.context with
            | .replace => acc.contextSources.getLast?
            | .merge =>
              some (.factory (fun _ =>
                acc.contextSources.foldl
                  (fun merged src => spreadAssoc merged (evalCtxSource src)) []))
        .ok { initial := initial, states := mergedStates, context := context }

/-! ## `from-mermaid.ts` (the decoder)

The parser works line by line with a handful of JS regexes.  Each regex is
translated into an explicit character-list matcher; since the character
classes involved (`\w`, `\s`, literal punctuation) are pairwise disjoint, the
greedy matches are deterministic and the translations below are direct. -/

/-- `typeof x === undefined` test on a `guard`/`action` field. -/
def JsVal.isUndef {F : Type} : JsVal F → Bool
  | .undefined => true
  | _ => false

/-- JS `\w`: ASCII letters, digits and underscore. -/
def isWordChar (c : Char) : Bool := c.isAlphanum || c == '_'

/-- JS `String.prototype.trim` on a character list. -/
def trimChars (l : List Char) : List Char :=
  ((l.dropWhile Char.isWhitespace).reverse.dropWhile Char.isWhitespace).reverse

/-- `line.trim().startsWith("stateDiagram-v2")`. -/
def isHeaderLine (l : List Char) : Bool :=
  "stateDiagram-v2".toList.isPrefixOf (trimChars l)

/-- Regex `^w\s` for a literal word `w` (used for `classDef`/`class`/`style`
and `note`). -/
def startsWithWordWs (w : String) (l : List Char) : Bool :=
  w.toList.isPrefixOf l &&
    (match l.drop w.length with
     | c :: _ => c.isWhitespace
     | [] => false)

/-- Regex `^state\s+["']` (state description lines). -/
def isStateDescLine (l : List Char) : Bool :=
  "state".toList.isPrefixOf l &&
    (let r := l.drop 5
     let ws := r.takeWhile Char.isWhitespace
     let r2 := r.dropWhile Char.isWhitespace
     ws.length > 0 &&
       (match r2 with
        | c :: _ => c == '"' || c == '\''
        | [] => false))

/-- Regex `^state\s+\w+\s*\{` (composite state definitions). -/
def isCompositeStateLine (l : List Char) : Bool :=
  "state".toList.isPrefixOf l &&
    (let r1 := l.drop 5
     let ws := r1.takeWhile Char.isWhitespace
     let r2 := r1.dropWhile Char.isWhitespace
     let w := r2.takeWhile isWordChar
     let r3 := (r2.dropWhile isWordChar).dropWhile Char.isWhitespace
     ws.length > 0 && w.length > 0 &&
       (match r3 with
        | c :: _ => c == '{'
        | [] => false))

/-- Does the list match `-->\s*\[\*\]\s*$` starting at its head? -/
def matchesFinalArrowAt (l : List Char) : Bool :=
  "-->".toList.isPrefixOf l &&
    (let r := (l.drop 3).dropWhile Char.isWhitespace
     "[*]".toList.isPrefixOf r &&
       ((r.drop 3).dropWhile Char.isWhitespace).isEmpty)

/-- The test of regex `-->\s*\[\*\]\s*$` on a line (unanchored at the
start). -/
def hasFinalArrow : List Char → Bool
  | [] => false
  | l@(_ :: rest) => matchesFinalArrowAt l || hasFinalArrow rest

/-- Regex `^\[\*\]\s*-->\s*(\w+)$`; returns the captured state name. -/
def matchInitial (l : List Char) : Option (List Char) :=
  if "[*]".toList.isPrefixOf l then
    let r := (l.drop 3).dropWhile Char.isWhitespace
    if "-->".toList.isPrefixOf r then
      let r2 := (r.drop 3).dropWhile Char.isWhitespace
      let w := r2.takeWhile isWordChar
      if w.length > 0 && (r2.dropWhile isWordChar).isEmpty then some w
      else none
    else none
  else none

/-- Regex `^(\w+)\s*-->\s*(\w+):\s*(.+)$`; returns the two state names and the
raw label (with its leading whitespace dropped — the label is only ever
observed through `label.trim()`, for which this is equivalent to the regex's
backtracking on `\s*(.+)`). -/
def matchTransition (l : List Char) :
    Option (List Char × List Char × List Char) :=
  let w1 := l.takeWhile isWordChar
  let r1 := (l.dropWhile isWordChar).dropWhile Char.isWhitespace
  if w1.length > 0 && "-->".toList.isPrefixOf r1 then
    let r2 := (r1.drop 3).dropWhile Char.isWhitespace
    let w2 := r2.takeWhile isWordChar
    let r3 := r2.dropWhile isWordChar
    if w2.length > 0 then
      match r3 with
      | ':' :: rest =>
        let label := rest.dropWhile Char.isWhitespace
        if rest.isEmpty then none else some (w1, w2, label)
      | _ => none
    else none
  else none

/-- Does the whole list match `\s*\/\s*\(action(\s+internal)?\)`?  Returns
whether the `internal` variant matched. -/
def matchActionToEnd (l : List Char) : Option Bool :=
  let r := l.dropWhile Char.isWhitespace
  match r with
  | '/' :: r1 =>
    let r2 := r1.dropWhile Char.isWhitespace
    match r2 with
    | '(' :: r3 =>
      if "action".toList.isPrefixOf r3 then
        let r4 := r3.drop 6
        match r4 with
        | [']'] => none
        | [')'] => some false
        | _ =>
          let ws := r4.takeWhile Char.isWhitespace
          let r5 := r4.dropWhile Char.isWhitespace
          if ws.length > 0 && r5 == "internal)".toList then some true
          else none
      else none
    | _ => none
  | _ => none

/-- The leftmost match of `/\s*\/\s*\((action(?:\s+internal)?)\)$/`: returns
the part of the label before the match (`label.substring(0, match.index)`)
and whether the action is internal. -/
def findActionSplit : List Char → Option (List Char × Bool)
  | [] => none
  | l@(c :: rest) =>
    match matchActionToEnd l with
    | some b => some ([], b)
    | none =>
      match findActionSplit rest with
      | some pb => some (c :: pb.1, pb.2)
      | none => none

/-- Does the whole list match
`\s*\[(guard(?:\s+[^\]]+)?|guarded)\]`? -/
def matchGuardToEnd (l : List Char) : Bool :=
  let r := l.dropWhile Char.isWhitespace
  match r with
  | '[' :: r1 =>
    let branch1 : Bool :=
      "guard".toList.isPrefixOf r1 &&
        (let r2 := r1.drop 5
         match r2.getLast? with
         | some ']' =>
           let body := r2.dropLast
           body.isEmpty ||
             (match body with
              | c :: _ =>
                c.isWhitespace && body.length ≥ 2 &&
                  body.all (fun d => d != ']')
              | [] => false)
         | _ => false)
    branch1 || r1 == "guarded]".toList
  | _ => false

/-- The leftmost match of the guard regex anchored at the end: returns the
part of the event text before the match. -/
def findGuardSplit : List Char → Option (List Char)
  | [] => none
  | l@(c :: rest) =>
    if matchGuardToEnd l then some []
    else
      match findGuardSplit rest with
      | some pre => some (c :: pre)
      | none => none

/-- The result of `parseLabel`. -/
structure ParsedLabel where
  event : String
  hasGuard : Bool
  hasAction : Bool
  isInternalAction : Bool

/-- `parseLabel` from `from-mermaid.ts` (the argument is the already-trimmed
label). -/
def parseLabel (label : List Char) : ParsedLabel :=
  let step1 : List Char × Bool × Bool :=
    match findActionSplit label with
    | some pb => (trimChars pb.1, true, pb.2)
    | none => (label, false, false)
  let step2 : List Char × Bool :=
    match findGuardSplit step1.1 with
    | some pre => (trimChars pre, true)
    | none => (step1.1, false)
  let ev := if step2.1 == "* (any)".toList then "*".toList else step2.1
  { event := String.mk ev, hasGuard := step2.2, hasAction := step1.2.1,
    isInternalAction := step1.2.2 }

/-- The nested `statesMap` being accumulated (a JS `Map` of `Map`s of arrays,
all insertion-ordered). -/
abbrev StatesMap (Ctx P : Type) :=
  List (String × List (String × List (TransitionObj Ctx P)))

/-- `statesMap.get(from)!.get(event)!.push(t)` including the two
initialize-if-absent steps. -/
def pushTransition (sm : StatesMap Ctx P) (src event : String)
    (t : TransitionObj Ctx P) : StatesMap Ctx P :=
  let sm := if (sm.lookup src).isNone then sm ++ [(src, [])] else sm
  modifyAssoc sm src (fun evMap =>
    let evMap :=
      if (evMap.lookup event).isNone then evMap ++ [(event, [])] else evMap
    modifyAssoc evMap event (fun arr => arr ++ [t]))

/-- Build the transition object for one parsed line: an internal transition
when source and target coincide and the label carried the `internal` action
marker, otherwise an external edge; reconstructed guards/actions are the
`null` placeholders the source assigns. -/
def mkTransitionObj (src tgt : String) (p : ParsedLabel) :
    TransitionObj Ctx P :=
  if src == tgt && p.isInternalAction then
    { target := none, guard := .undefined,
      action := if p.hasAction then .null else .undefined }
  else
    { target := some tgt,
      guard := if p.hasGuard then .null else .undefined,
      action := if p.hasAction then .null else .undefined }

/-- One iteration of the main line loop of `fromMermaid`. -/
def processLine (acc : Option String × StatesMap Ctx P) (rawLine : List Char) :
    Option String × StatesMap Ctx P :=
  let line := trimChars rawLine
  if line.isEmpty then acc
  else if "%%".toList.isPrefixOf line then acc
  else if "direction ".toList.isPrefixOf line then acc
  else if startsWithWordWs "classDef" line || startsWithWordWs "class" line ||
      startsWithWordWs "style" line then acc
  else if isStateDescLine line then acc
  else if isCompositeStateLine line || line == "\x7b".toList ||
      line == "\x7d".toList then acc
  else if startsWithWordWs "note" line then acc
  else if hasFinalArrow line then acc
  else
    match matchInitial line with
    | some w => (some (String.mk w), acc.2)
    | none =>
      match matchTransition line with
      | some m =>
        let src := String.mk m.1
        let tgt := String.mk m.2.1
        let parsed := parseLabel (trimChars m.2.2)
        (acc.1,
          pushTransition acc.2 src parsed.event
            (mkTransitionObj src tgt parsed))
      | none => acc

/-- The final conversion of the accumulated `statesMap` into config format:
a singleton array collapses to a bare string when the edge has only a target
(`t.target && t.guard === undefined && t.action === undefined` — note that
the `null` placeholders fail the `=== undefined` test) or to a single object,
a longer array stays an array. -/
def finalizeStates (sm : StatesMap Ctx P) :
    List (String × StateConfig Ctx P) :=
  sm.map (fun st =>
    (st.1,
      { onMap := some (st.2.map (fun evEntry =>
          (evEntry.1,
            match evEntry.2 with
            | [t] =>
              if targetTruthy t.target && t.guard.isUndef && t.action.isUndef
              then TransitionDef.str (t.target.getD "")
              else TransitionDef.obj t
            | arr => TransitionDef.arr arr))) }))

/-- `fromMermaid(mermaidDiagram)`. -/
def fromMermaid (mermaidDiagram : String) :
    Except String (FSMConfig Ctx P) :=
  let lines := (trimChars mermaidDiagram.toList).splitOn '\n'
  match lines.findIdx? isHeaderLine with
  | none =>
    .error "Invalid mermaid diagram: must contain \"stateDiagram-v2\""
  | some startIndex =>
    let r := (lines.drop (startIndex + 1)).foldl processLine
      (none, ([] : StatesMap Ctx P))
    match r.1 with
    | none =>
      .error "Invalid mermaid diagram: no initial state found ([*] --> State)"
    | some initial =>
      .ok { initial := initial, states := finalizeStates r.2, context := none }

/-! ## `FSM.toMermaid` (the encoder) -/

/-- Decimal rendering of an integer, as the JS template literal interpolates
it. -/
def intChars (i : Int) : List Char :=
  if i < 0 then '-' :: Nat.toDigits 10 i.natAbs else Nat.toDigits 10 i.natAbs

/-- The `formatLabel` helper inside `toMermaid`.  `guardIdx` is the TS
`number | null`.  Faithful to the source: the branch
`else if (guardIdx === -1) label += " [guarded]"` is only reached when
`guardIdx !== null` already failed, i.e. when `guardIdx` is `null`, so it can
never fire and `some (-1)` renders as `" [guard -1]"`. -/
def formatLabel (evt : String) (guardIdx : Option Int) (hasAction : Bool)
    (isInternal : Bool) : String :=
  let label := if evt == "*" then "* (any)" else evt
  let label :=
    match guardIdx with
    | some n => label ++ " [guard " ++ String.mk (intChars n) ++ "]"
    | none => label
  if hasAction then
    if isInternal then label ++ " / (action internal)"
    else label ++ " / (action)"
  else label

/-- Render the lines for one `[event, def]` entry of a state's `on` map. -/
def renderTransitionLines (stateName event : String)
    (d : TransitionDef Ctx P) : String :=
  match d with
  | .str target =>
    let label := if event == "*" then "* (any)" else event
    "    " ++ stateName ++ " --> " ++ target ++ ": " ++ label ++ "\n"
  | .arr ts =>
    String.join (ts.enum.map (fun ti =>
      let t := ti.2
      let target := t.target.getD stateName
      let label := formatLabel event (some ((ti.1 : Int) + 1)) t.action.isFn
        (!targetTruthy t.target)
      "    " ++ stateName ++ " --> " ++ target ++ ": " ++ label ++ "\n"))
  | .obj t =>
    let target := t.target.getD stateName
    let label := formatLabel event
      (if t.guard.isFn then some (-1) else none) t.action.isFn
      (!targetTruthy t.target)
    "    " ++ stateName ++ " --> " ++ target ++ ": " ++ label ++ "\n"

/-- `FSM.toMermaid()`. -/
def toMermaid (config : FSMConfig Ctx P) : String :=
  let header := "stateDiagram-v2\n" ++ "    [*] --> " ++ config.initial ++ "\n"
  config.states.foldl
    (fun acc st =>
      match st.2.onMap with
      | none => acc
      | some onEntries =>
        onEntries.foldl
          (fun acc2 evd => acc2 ++ renderTransitionLines st.1 evd.1 evd.2)
          acc)
    header

/-! ## Auxiliary definitions for the claims -/

/-- The target states named by a transition definition. -/
def defTargets : TransitionDef Ctx P → List String
  | .str s => [s]
  | .obj t => t.target.toList
  | .arr ts => (ts.map (fun t => t.target.toList)).flatten

/-- Whether every transition target of every state names a state present in
the states map (the well-formedness under which `canTransition` exactly
predicts that `transition` does not throw). -/
def wellTargetedB (m : Machine Ctx P) : Bool :=
  m.config.states.all (fun st =>
    (st.2.onMap.getD []).all (fun ed =>
      (defTargets ed.2).all (fun tgt => (m.config.states.lookup tgt).isSome)))

/-- The spec's wording of sequence resolution (C4): scan in declared order and
select the first entry whose guard is absent or evaluates to true against the
CURRENT context; fail if no entry matches. -/
def firstMatchSpec (ctx : Ctx) (payload : P) :
    List (TransitionObj Ctx P) → Option (TransitionObj Ctx P)
  | [] => none
  | t :: rest =>
    match t.guard with
    | .fn g =>
      if (g ctx payload).1 then some t else firstMatchSpec ctx payload rest
    | _ => some t

/-! ## Helper lemmas -/

theorem lookup_mem {α : Type} {k : String} {v : α} :
    ∀ {l : List (String × α)}, l.lookup k = some v → (k, v) ∈ l := by
  intro l
  induction l with
  | nil => intro h; simp [List.lookup] at h
  | cons p rest ih =>
    intro h
    obtain ⟨k', v'⟩ := p
    rw [List.lookup] at h
    by_cases hk : k = k'
    · subst hk
      simp only [beq_self_eq_true] at h
      simp only [Option.some.injEq] at h
      subst h
      exact List.mem_cons_self _ _
    · have hb : (k == k') = false := beq_eq_false_iff_ne.mpr hk
      rw [hb] at h
      exact List.mem_cons_of_mem _ (ih h)

theorem lookupDef_mem {onMap : List (String × TransitionDef Ctx P)}
    {ev : String} {d : TransitionDef Ctx P}
    (h : lookupDef onMap ev = some d) : (ev, d) ∈ onMap := by
  unfold lookupDef at h
  cases hl : onMap.lookup ev with
  | none => rw [hl] at h; exact absurd h (by simp)
  | some d' =>
    rw [hl] at h
    simp only at h
    by_cases ht : defTruthy d' = true
    · rw [if_pos ht] at h
      simp only [Option.some.injEq] at h
      subst h
      exact lookup_mem hl
    · rw [if_neg ht] at h
      exact absurd h (by simp)

theorem findDef_mem {onMap : List (String × TransitionDef Ctx P)}
    {event : String} {td : TransitionDef Ctx P}
    (h : findDef onMap event = some td) : ∃ k, (k, td) ∈ onMap := by
  unfold findDef at h
  cases he : lookupDef onMap event with
  | some d =>
    rw [he] at h
    simp only [Option.some.injEq] at h
    subst h
    exact ⟨event, lookupDef_mem he⟩
  | none =>
    rw [he] at h
    exact ⟨"*", lookupDef_mem h⟩

theorem scanSeq_mem {payload : P} {t : TransitionObj Ctx P} :
    ∀ {ts : List (TransitionObj Ctx P)} {clone : Ctx},
      scanSeq payload clone ts = some t → t ∈ ts := by
  intro ts
  induction ts with
  | nil => intro clone h; simp [scanSeq] at h
  | cons hd rest ih =>
    intro clone h
    rw [scanSeq] at h
    cases hg : hd.guard with
    | fn g =>
      rw [hg] at h
      simp only at h
      by_cases hb : (g clone payload).1 = true
      · rw [if_pos hb] at h
        simp only [Option.some.injEq] at h
        subst h
        exact List.mem_cons_self _ _
      · rw [if_neg hb] at h
        exact List.mem_cons_of_mem _ (ih h)
    | undefined =>
      rw [hg] at h
      simp only [Option.some.injEq] at h
      subst h
      exact List.mem_cons_self _ _
    | null =>
      rw [hg] at h
      simp only [Option.some.injEq] at h
      subst h
      exact List.mem_cons_self _ _

theorem resolve_target_mem {ctx : Ctx} {td : TransitionDef Ctx P}
    {payload : P} {t : TransitionObj Ctx P} {s : String}
    (h : resolveTransition ctx td payload = some t) (ht : t.target = some s) :
    s ∈ defTargets td := by
  cases td with
  | str s' =>
    simp only [resolveTransition, Option.some.injEq] at h
    subst h
    simp only [defTargets]
    simp only at ht
    simp only [Option.some.injEq] at ht
    subst ht
    exact List.mem_singleton.mpr rfl
  | obj t' =>
    have htt : t = t' := by
      simp only [resolveTransition] at h
      cases hg : t'.guard with
      | fn g =>
        rw [hg] at h
        simp only at h
        by_cases hb : (g ctx payload).1 = true
        · rw [if_pos hb] at h; exact (Option.some.injEq _ _ ▸ h).symm
        · rw [if_neg hb] at h; exact absurd h (by simp)
      | undefined => rw [hg] at h; exact (Option.some.injEq _ _ ▸ h).symm
      | null => rw [hg] at h; exact (Option.some.injEq _ _ ▸ h).symm
    subst htt
    simp only [defTargets, ht, Option.toList_some]
    exact List.mem_singleton.mpr rfl
  | arr ts =>
    have hsc : scanSeq payload ctx ts = some t := by
      simpa [resolveTransition] using h
    have hmem : t ∈ ts := scanSeq_mem hsc
    simp only [defTargets]
    rw [List.mem_flatten]
    exact ⟨t.target.toList, List.mem_map_of_mem _ hmem, by simp [ht]⟩

theorem canTransition_snd (m : Machine Ctx P) (event : String) (payload : P) :
    (canTransition m event payload).2 = m := by
  unfold canTransition
  split
  · rfl
  · split
    · rfl
    · split
      · rfl
      · rfl

theorem wellTargeted_lookup {m : Machine Ctx P} (hwt : wellTargetedB m = true)
    {stateCfg : StateConfig Ctx P}
    {onMap : List (String × TransitionDef Ctx P)}
    (hs : m.config.states.lookup m.state = some stateCfg)
    (ho : stateCfg.onMap = some onMap) {k : String} {td : TransitionDef Ctx P}
    (hk : (k, td) ∈ onMap) {tgt : String} (htm : tgt ∈ defTargets td) :
    ∃ nextCfg, m.config.states.lookup tgt = some nextCfg := by
  unfold wellTargetedB at hwt
  rw [List.all_eq_true] at hwt
  have h1 := hwt _ (lookup_mem hs)
  simp only [ho, Option.getD_some] at h1
  rw [List.all_eq_true] at h1
  have h2 := h1 _ hk
  simp only at h2
  rw [List.all_eq_true] at h2
  have h3 := h2 _ htm
  simp only at h3
  exact Option.isSome_iff_exists.mp h3

theorem runExternal_ok {m : Machine Ctx P} {stateCfg : StateConfig Ctx P}
    {t : TransitionObj Ctx P} {nextState : String} {payload : P}
    {nextCfg : StateConfig Ctx P}
    (hn : m.config.states.lookup nextState = some nextCfg) :
    ∃ r, runExternal m stateCfg t nextState payload = Except.ok r := by
  unfold runExternal
  rw [hn]
  exact ⟨_, rfl⟩

/-! ## Claim C1 -/

/-- C1 (amended): for every configuration in which every transition target
names a state present in the states map, `canTransition(e, p)` returns true
iff `transition(e, p)` (with the default `assert = true`) would not throw;
and a call to `canTransition` leaves the machine — current state, previous
state and context — unchanged, even when a guard mutates the context argument
it receives, because guards are evaluated against a structural clone of the
context, never the live value (in the embedding: a guard's output context is
discarded, never written back into the machine).  The well-targetedness
proviso is the amendment forced by `C1_counterexample`: on a resolvable edge
whose target state is absent from the states map, `canTransition` answers
true while `transition` throws a TypeError. -/
theorem C1_canTransition_iff_no_throw (m : Machine Ctx P) (event : String)
    (payload : P) (hwt : wellTargetedB m = true) :
    ((canTransition m event payload).1 = true ↔
      ∃ r, transition m event payload true = Except.ok r) ∧
    (canTransition m event payload).2 = m := by
  refine ⟨?_, canTransition_snd m event payload⟩
  unfold canTransition transition
  cases hs : m.config.states.lookup m.state with
  | none => simp
  | some stateCfg =>
    simp only
    cases ho : stateCfg.onMap with
    | none => simp
    | some onMap =>
      simp only
      cases hf : findDef onMap event with
      | none => simp
      | some td =>
        simp only
        cases hr : resolveTransition m.context td payload with
        | none => simp
        | some t =>
          simp only [Option.isSome_some, true_iff]
          by_cases htt : targetTruthy t.target = true
          · rw [if_pos htt]
            obtain ⟨tgt, htgt⟩ : ∃ s, t.target = some s := by
              cases ht : t.target with
              | none => rw [ht] at htt; exact absurd htt (by simp [targetTruthy])
              | some s => exact ⟨s, rfl⟩
            obtain ⟨k, hk⟩ := findDef_mem hf
            obtain ⟨nextCfg, hnext⟩ :=
              wellTargeted_lookup hwt hs ho hk (resolve_target_mem hr htgt)
            rw [htgt]
            simp only [Option.getD_some]
            exact runExternal_ok hnext
          · rw [if_neg htt]
            exact ⟨_, rfl⟩

/-- The machine used to refute C1 as stated: its single state `"A"` has a
resolvable edge `go` to `"B"`, but `"B"` has no entry in the states map. -/
def machC1 : Machine Nat Unit :=
  FSM.new
    { initial := "A",
      states := [("A", { onMap := some [("go", TransitionDef.str "B")] })] } 0

/-- C1 counterexample: on `machC1`, `canTransition("go")` answers true, yet
`transition("go")` with `assert = true` throws (the source dereferences
`this.config.states["B"].onEnter` on `undefined`), refuting the claimed
equivalence as stated, for this configuration. -/
theorem C1_counterexample :
    (canTransition machC1 "go" ()).1 = true ∧
    transition machC1 "go" () true =
      Except.error
        "TypeError: Cannot read properties of undefined (reading 'onEnter')" :=
  ⟨rfl, rfl⟩

/-- Well-targeted two-state machine for the C1 witness. -/
def machC1W : Machine Nat Unit :=
  FSM.new
    { initial := "A",
      states := [("A", { onMap := some [("go", TransitionDef.str "B")] }),
                 ("B", { onMap := some [] })] } 0

theorem C1_witness :
    wellTargetedB machC1W = true ∧
    (((canTransition machC1W "go" ()).1 = true ↔
        ∃ r, transition machC1W "go" () true = Except.ok r) ∧
      (canTransition machC1W "go" ()).2 = machC1W) :=
  ⟨rfl, C1_canTransition_iff_no_throw machC1W "go" () rfl⟩

/-! ## Claim C2 -/

/-- C2: for every configuration and event, when resolution fails — the
current state's on-mapping has no entry for the literal event and no wildcard
entry, or every guard in the resolved definition rejects — `transition`
throws when `assert = true`; with `assert = false` it returns the unchanged
machine with an empty event trace: current state, previous state and context
unchanged, and no subscriber notified. -/
theorem C2_resolution_failure (m : Machine Ctx P) (event : String)
    (payload : P) {stateCfg : StateConfig Ctx P}
    {onMap : List (String × TransitionDef Ctx P)}
    (hs : m.config.states.lookup m.state = some stateCfg)
    (ho : stateCfg.onMap = some onMap)
    (hfail : findDef onMap event = none ∨
      ∃ td, findDef onMap event = some td ∧
        resolveTransition m.context td payload = none) :
    (∃ msg, transition m event payload true = Except.error msg) ∧
    transition m event payload false = Except.ok (m, []) := by
  unfold transition
  rcases hfail with hf | ⟨td, hf, hr⟩
  · simp only [hs, ho, hf]
    exact ⟨⟨_, rfl⟩, rfl⟩
  · simp only [hs, ho, hf, hr]
    exact ⟨⟨_, rfl⟩, rfl⟩

/-- Machine for the C2 witness: state `"S"` has an empty on-mapping, so any
event fails resolution. -/
def machC2 : Machine Nat Unit :=
  FSM.new { initial := "S", states := [("S", { onMap := some [] })] } 0

theorem C2_witness :
    (∃ msg, transition machC2 "go" () true = Except.error msg) ∧
    transition machC2 "go" () false = Except.ok (machC2, []) :=
  C2_resolution_failure machC2 "go" () rfl rfl (Or.inl rfl)

/-! ## Claim C3 -/

/-- C3 (amended): for every resolved edge with a (truthy) target whose target
state is present in the states map — including the self-loop case — a
`transition` call executes exactly in this order: the old state's `onExit`
(receiving the pre-transition context), then the edge's `action`, then
previous←old and current←target, then the new state's `onEnter`, then one
notification per subscriber carrying the new snapshot.  The presence proviso
is the amendment forced by `C3_counterexample`: when the target state is
absent from the states map the source throws a TypeError after `onExit`, the
action and the state assignment, and neither `onEnter` nor any notification
happens. -/
theorem C3_external_order (m : Machine Ctx P) (event : String) (payload : P)
    (assert : Bool) {stateCfg : StateConfig Ctx P}
    {onMap : List (String × TransitionDef Ctx P)} {td : TransitionDef Ctx P}
    {t : TransitionObj Ctx P} {tgt : String} {nextCfg : StateConfig Ctx P}
    (hs : m.config.states.lookup m.state = some stateCfg)
    (ho : stateCfg.onMap = some onMap)
    (hf : findDef onMap event = some td)
    (hr : resolveTransition m.context td payload = some t)
    (ht : t.target = some tgt) (htt : strTruthy tgt = true)
    (hn : m.config.states.lookup tgt = some nextCfg) :
    transition m event payload assert =
      (let s1 : Ctx × List (Ev Ctx) :=
        match stateCfg.onExit with
        | some f => (f m.context payload, [Ev.exitHook m.state m.context])
        | none => (m.context, [])
       let s2 : Ctx × List (Ev Ctx) :=
        match t.action with
        | .fn a => (a s1.1 payload, [Ev.actionRun s1.1])
        | _ => (s1.1, [])
       let s3 : Ctx × List (Ev Ctx) :=
        match nextCfg.onEnter with
        | some f => (f s2.1 payload, [Ev.enterHook tgt s2.1])
        | none => (s2.1, [])
       Except.ok
        ({ m with previous := some m.state, state := tgt, context := s3.1 },
          s1.2 ++ s2.2 ++ s3.2 ++
            m.subs.map (fun i => Ev.callCb i ⟨tgt, some m.state, s3.1⟩))) := by
  unfold transition
  simp only [hs, ho, hf, hr, ht, targetTruthy, htt, if_true]
  unfold runExternal
  simp only [ht, Option.getD_some, hn]
  cases hx : stateCfg.onExit <;> cases ha : t.action <;>
    cases he : nextCfg.onEnter <;> simp only [hx, ha, he] <;> rfl

/-- The machine used to refute C3 as stated: `go` resolves to an edge with
target `"B"`, but `"B"` is absent from the states map. -/
def machC3 : Machine Nat Unit :=
  FSM.new
    { initial := "A",
      states := [("A", { onExit := some (fun c _ => c + 1),
                         onMap := some [("go", TransitionDef.str "B")] })] } 0

/-- C3 counterexample: the event resolves to an edge with the (truthy) target
`"B"`, yet `transition` does not execute the claimed sequence — it throws,
so no onEnter is run and no subscriber is notified. -/
theorem C3_counterexample :
    findDef ([("go", TransitionDef.str "B")] :
        List (String × TransitionDef Nat Unit)) "go" =
      some (TransitionDef.str "B") ∧
    resolveTransition machC3.context
        (TransitionDef.str "B" : TransitionDef Nat Unit) () =
      some { target := some "B" } ∧
    transition machC3 "go" () true =
      Except.error
        "TypeError: Cannot read properties of undefined (reading 'onEnter')" :=
  ⟨rfl, rfl, rfl⟩

/-- Machine for the C3 witness: all three hooks present, one subscriber
(id 5). -/
def machC3W : Machine Nat Unit :=
  { config :=
      { initial := "S",
        states := [("S", { onExit := some (fun c _ => c + 1),
                           onMap := some [("go", TransitionDef.obj
                             { target := some "T",
                               action := .fn (fun c _ => c * 10) })] }),
                   ("T", { onEnter := some (fun c _ => c + 7),
                           onMap := some [] })] },
    state := "S", previous := none, context := 0, subs := [5], nextId := 6 }

theorem C3_witness :
    transition machC3W "go" () true =
      Except.ok
        ({ machC3W with previous := some "S", state := "T", context := 17 },
          [Ev.exitHook "S" 0, Ev.actionRun 1, Ev.enterHook "T" 10,
            Ev.callCb 5 ⟨"T", some "S", 17⟩]) :=
  C3_external_order machC3W "go" () true rfl rfl rfl rfl rfl rfl rfl

/-! ## Claim C4 -/

theorem scanSeq_pure (payload : P) (ctx : Ctx) :
    ∀ ts : List (TransitionObj Ctx P),
      (∀ t ∈ ts, ∀ g, t.guard = .fn g → ∀ c, (g c payload).2 = c) →
      scanSeq payload ctx ts = firstMatchSpec ctx payload ts := by
  intro ts
  induction ts with
  | nil => intro _; rfl
  | cons t rest ih =>
    intro hpure
    rw [scanSeq, firstMatchSpec]
    cases hg : t.guard with
    | fn g =>
      simp only
      have hp := hpure t (List.mem_cons_self _ _) g hg ctx
      cases hb : (g ctx payload).1 with
      | true => simp
      | false =>
        rw [if_neg (by simp [hb])]
        rw [hp]
        exact ih (fun t' ht' => hpure t' (List.mem_cons_of_mem _ ht'))
    | undefined => rfl
    | null => rfl

/-- C4 (amended): for every sequence-form transition definition whose guards
do not mutate the context they receive (pure predicates, as the source's
contract demands), resolution selects the first entry in declared order whose
guard is absent or evaluates to true against the current context; a guardless
entry is an unconditional match, and if no entry matches, resolution fails.
Without the purity proviso the claim fails (`C4_counterexample`): the source
creates one structural clone before the scan and passes that same clone to
every guard, so a later guard is evaluated against the mutations earlier
guards made to the shared clone, not against the current context. -/
theorem C4_sequence_first_match (ctx : Ctx) (payload : P)
    (ts : List (TransitionObj Ctx P))
    (hpure : ∀ t ∈ ts, ∀ g, t.guard = .fn g → ∀ c, (g c payload).2 = c) :
    resolveTransition ctx (TransitionDef.arr ts) payload =
      firstMatchSpec ctx payload ts := by
  unfold resolveTransition
  exact scanSeq_pure payload ctx ts hpure

/-- First entry of the C4 counterexample: its guard rejects but increments the
(shared) clone it received. -/
def edgeC4a : TransitionObj Nat Unit :=
  { target := some "A", guard := .fn (fun c _ => (false, c + 1)) }

/-- Second entry of the C4 counterexample: its guard accepts exactly the
mutated value 1 — false on the current context 0. -/
def edgeC4b : TransitionObj Nat Unit :=
  { target := some "B", guard := .fn (fun c _ => (decide (c = 1), c)) }

/-- C4 counterexample: with current context 0, resolution selects the second
entry although both guards evaluate to false against the current context —
the spec-worded scan (`firstMatchSpec`) would fail — because entry 1 mutated
the single clone shared by the whole scan. -/
theorem C4_counterexample :
    resolveTransition 0 (TransitionDef.arr [edgeC4a, edgeC4b]) () =
      some edgeC4b ∧
    ((fun c _ => (false, c + 1)) : Nat → Unit → Bool × Nat) 0 () =
      (false, 1) ∧
    ((fun c _ => (decide (c = 1), c)) : Nat → Unit → Bool × Nat) 0 () =
      (false, 0) ∧
    firstMatchSpec 0 () [edgeC4a, edgeC4b] = none :=
  ⟨rfl, rfl, rfl, rfl⟩

/-- Sequence with pure guards for the C4 witness. -/
def seqC4W : List (TransitionObj Nat Unit) :=
  [{ target := some "X", guard := .fn (fun c _ => (decide (c > 5), c)) },
   { target := some "Y" }]

theorem C4_witness :
    resolveTransition 3 (TransitionDef.arr seqC4W) () =
      firstMatchSpec 3 () seqC4W ∧
    firstMatchSpec 3 () seqC4W = some { target := some "Y" } :=
  ⟨C4_sequence_first_match 3 () seqC4W (by
      intro t ht g hg c
      simp only [seqC4W, List.mem_cons, List.not_mem_nil, or_false] at ht
      rcases ht with h1 | h2
      · subst h1
        simp only at hg
        cases hg
        rfl
      · subst h2
        simp only at hg
        cases hg),
    rfl⟩

/-! ## Claim C5 -/

/-- The C5 failing input: a diagram accepted by the decoder whose single edge
label carries a guard marker. -/
def mermaidC5 : String :=
  "stateDiagram-v2\n    [*] --> A\n    A --> B: go [guarded]\n"

/-- C5: the decoder reconstructs guards/actions as `null` placeholders, and
the encoder tests the guard/action fields for truthiness (`def.guard ?`,
`!!t.action`), which `null` fails — so `encode(decode(t))` drops the guard
marker of a single guarded edge: the re-encoded label is plain `go`, which
the decoder's own label grammar classifies as guardless.  The state/event/
target graph is preserved, but guard/action marker presence is not, although
the repository's own tests assert that reconstructed placeholders are
functions and round-trip their markers. -/
theorem C5_roundtrip_loses_guard_marker :
    (parseLabel "go [guarded]".toList).hasGuard = true ∧
    (fromMermaid mermaidC5 : Except String (FSMConfig Nat Unit)).map toMermaid
      = Except.ok "stateDiagram-v2\n    [*] --> A\n    A --> B: go\n" ∧
    (parseLabel "go".toList).hasGuard = false :=
  ⟨rfl, rfl, rfl⟩

/-! ## Claim C6 -/

/-- The C6 failing input: a config with a single (non-sequence) guarded
edge. -/
def cfgC6 : FSMConfig Nat Unit :=
  { initial := "A",
    states := [("A", { onMap := some [("go", TransitionDef.obj
        { target := some "B", guard := .fn (fun c _ => (true, c)) })] }),
      ("B", { onMap := some [] })] }

/-- C6: a single guarded edge renders as `go [guard -1]`, never as
`go [guarded]`: in the source the branch
`else if (guardIdx === -1) label += " [guarded]"` is dead code because it is
only reached when `guardIdx !== null` failed, contradicting `toMermaid`'s own
doc comment ("Guards are shown as `[guard N]` or `[guarded]`"). -/
theorem C6_single_guarded_label :
    toMermaid cfgC6 =
      "stateDiagram-v2\n    [*] --> A\n    A --> B: go [guard -1]\n" := rfl

/-! ## Claim C7 -/

/-- Earlier fragment of the general C7 statement: defines `IDLE.on.submit` as
`dA`. -/
def fragC7A (dA : TransitionDef (ObjCtx Bool) Unit) :
    Fragment (ObjCtx Bool) Unit :=
  { initial := some "IDLE",
    states := [("IDLE", { onMap := some [("submit", dA)] })] }

/-- Later fragment of the general C7 statement: defines `IDLE.on.submit` as
`dB`. -/
def fragC7B (dB : TransitionDef (ObjCtx Bool) Unit) :
    Fragment (ObjCtx Bool) Unit :=
  { states := [("IDLE", { onMap := some [("submit", dB)] })] }

/-- Concrete scenario, fragment A: `IDLE.on.submit = {target: "PROCESSING"}`
(plus the target state itself). -/
def fragC7AConc : Fragment (ObjCtx Bool) Unit :=
  { initial := some "IDLE",
    states := [("IDLE", { onMap := some [("submit",
        TransitionDef.obj { target := some "PROCESSING" })] }),
      ("PROCESSING", { onMap := some [] })] }

/-- Concrete scenario, fragment B (composed after A):
`IDLE.on.submit = {target: "LOGIN_REQUIRED", guard: !authenticated}` with an
unauthenticated context. -/
def fragC7BConc : Fragment (ObjCtx Bool) Unit :=
  { states := [("IDLE", { onMap := some [("submit",
        TransitionDef.obj
          { target := some "LOGIN_REQUIRED",
            guard := .fn
              (fun c _ => (!((c.lookup "authenticated").getD false), c)) })] }),
      ("LOGIN_REQUIRED", { onMap := some [] })],
    context := some (.val [("authenticated", false)]) }

/-- Compose the concrete fragments with the prepend policy, build the
machine, send `submit`, and report the resulting state. -/
def runC7 : Option String :=
  match composeFsmConfig [some fragC7AConc, some fragC7BConc]
      { transitions := .prepend } with
  | .ok cfg =>
    (transition (FSM.new cfg []) "submit" () true).toOption.map
      (fun r => r.1.state)
  | .error _ => none

/-- C7: with the `prepend` transitions policy, two fragments defining an
entry for the same state and event are both normalized to edge sequences and
the later fragment's entries precede the earlier fragment's (for arbitrary
definitions `dA`, `dB`), so the later fragment's guards are evaluated first;
in the concrete scenario an unauthenticated context transitions to
`LOGIN_REQUIRED`, not `PROCESSING`. -/
theorem C7_prepend_intercepts (dA dB : TransitionDef (ObjCtx Bool) Unit) :
    composeFsmConfig [some (fragC7A dA), some (fragC7B dB)]
        { transitions := .prepend } =
      Except.ok
        { initial := "IDLE",
          states := [("IDLE",
            { onEnter := none,
              onMap := some [("submit",
                TransitionDef.arr
                  (normalizeToArray dB ++ normalizeToArray dA))],
              onExit := none })],
          context := none } ∧
    runC7 = some "LOGIN_REQUIRED" :=
  ⟨rfl, rfl⟩

/-! ## Claim C8 -/

/-- First fragment of C8 (also carries the composed `initial`). -/
def fragC8A (s1 : CtxSource (ObjCtx Nat)) : Fragment (ObjCtx Nat) Unit :=
  { initial := some "I", context := some s1 }

/-- Second fragment of C8: context only. -/
def fragC8B (s2 : CtxSource (ObjCtx Nat)) : Fragment (ObjCtx Nat) Unit :=
  { context := some s2 }

/-- The value produced by the composed config's context source. -/
def mergedContext (s1 s2 : CtxSource (ObjCtx Nat)) : Option (ObjCtx Nat) :=
  match composeFsmConfig [some (fragC8A s1), some (fragC8B s2)] {} with
  | .ok cfg =>
    match cfg.context with
    | some src => some (evalCtxSource src)
    | none => none
  | .error _ => none

/-- The composed config of the concrete `{a:1}` / `{b:2}` instance. -/
def cfgC8 : FSMConfig (ObjCtx Nat) Unit :=
  match composeFsmConfig
      [some (fragC8A (.val [("a", 1)])), some (fragC8B (.val [("b", 2)]))]
      {} with
  | .ok cfg => cfg
  | .error _ => { initial := "", states := [] }

/-- C8: with the default `merge` context policy, whenever at least one
fragment defines a context the composed config's context is a factory that on
each call shallow-merges every fragment's context value or factory output in
fragment order (for arbitrary sources `s1`, `s2`), with later keys
overwriting earlier ones: `{a:1}` and `{b:2}` merge to `{a:1,b:2}`, and on a
key collision the later fragment wins; construction and `reset()` each
re-evaluate the factory, producing the fresh merge again even after the live
context was mutated. -/
theorem C8_context_merge (s1 s2 : CtxSource (ObjCtx Nat)) :
    (∃ f,
      (composeFsmConfig [some (fragC8A s1), some (fragC8B s2)] {}).map
          (fun cfg => cfg.context) =
        Except.ok (some (CtxSource.factory f)) ∧
      f () =
        spreadAssoc (spreadAssoc [] (evalCtxSource s1)) (evalCtxSource s2)) ∧
    mergedContext (.val [("a", 1)]) (.val [("b", 2)]) =
      some [("a", 1), ("b", 2)] ∧
    mergedContext (.val [("a", 1)]) (.val [("a", 9)]) = some [("a", 9)] ∧
    (FSM.new cfgC8 []).context = [("a", 1), ("b", 2)] ∧
    (reset { FSM.new cfgC8 [] with context := [("z", 0)] } []).1.context =
      [("a", 1), ("b", 2)] :=
  ⟨⟨_, rfl, rfl⟩, rfl, rfl, rfl, rfl⟩

/-! ## Claim C9 -/

/-- C9: if the engine's current state has no entry in the states map, or its
state config has no on-mapping, then `canTransition` returns false for every
event and payload — it is a total Boolean query, it cannot throw — whereas
`transition` in the same situation always throws the configuration error,
regardless of the `assert` argument. -/
theorem C9_missing_state_config (m : Machine Ctx P) (event : String)
    (payload : P)
    (h : m.config.states.lookup m.state = none ∨
      ∃ stateCfg, m.config.states.lookup m.state = some stateCfg ∧
        stateCfg.onMap = none) :
    (canTransition m event payload).1 = false ∧
    ∀ assert, transition m event payload assert =
      Except.error
        ("No transitions defined for state \"" ++ m.state ++ "\"") := by
  rcases h with h | ⟨stateCfg, h1, h2⟩
  · constructor
    · unfold canTransition
      simp [h]
    · intro assert
      unfold transition
      simp [h]
  · constructor
    · unfold canTransition
      simp [h1, h2]
    · intro assert
      unfold transition
      simp [h1, h2]

/-- Machine for the C9 witness: its current state has no entry in the states
map. -/
def machC9 : Machine Nat Unit :=
  { config := { initial := "GONE", states := [] }, state := "GONE",
    previous := none, context := 0 }

theorem C9_witness :
    (canTransition machC9 "go" ()).1 = false ∧
    ∀ assert, transition machC9 "go" () assert =
      Except.error
        ("No transitions defined for state \"" ++ machC9.state ++ "\"") :=
  C9_missing_state_config machC9 "go" () (Or.inl rfl)

/-! ## Claim C10 -/

/-- C10: `subscribe(cb)` synchronously invokes the new callback exactly once
before returning, with the current snapshot `{current, previous, context}`;
it notifies no other subscriber (the single recorded call goes to the freshly
issued id, which — subscriber ids being issued in increasing order — belongs
to none of the existing subscribers) and changes no engine state: current
state, previous state and context are unchanged. -/
theorem C10_subscribe_snapshot (m : Machine Ctx P)
    (hinv : ∀ i ∈ m.subs, i < m.nextId) :
    (subscribe m).2.2 = [Ev.callCb (subscribe m).2.1 (getNotifyData m)] ∧
    (subscribe m).2.1 ∉ m.subs ∧
    (subscribe m).1.state = m.state ∧
    (subscribe m).1.previous = m.previous ∧
    (subscribe m).1.context = m.context := by
  refine ⟨rfl, ?_, rfl, rfl, rfl⟩
  intro hmem
  exact lt_irrefl _ (hinv _ hmem)

/-- Machine for the C10 witness. -/
def machC10 : Machine Nat Unit :=
  FSM.new { initial := "S", states := [("S", { onMap := some [] })] } 7

theorem C10_witness :
    (subscribe machC10).2.2 =
      [Ev.callCb (subscribe machC10).2.1 (getNotifyData machC10)] ∧
    (subscribe machC10).2.1 ∉ machC10.subs ∧
    (subscribe machC10).1.state = machC10.state ∧
    (subscribe machC10).1.previous = machC10.previous ∧
    (subscribe machC10).1.context = machC10.context :=
  C10_subscribe_snapshot machC10 (by decide)

end Fsm
